import Mathlib

/-!
# QShield: a shallow embedding of the QuantumShield encryption system

This file embeds the byte-level cipher engine and the file/batch operations of
`quantum_shield.py` and `encrypt_and_commit_main_files.py` as executable Lean
definitions over `List Nat` byte strings, and proves or refutes the specified
properties about them.

Byte strings are `List Nat` whose elements are byte values (< 256); XOR of two
bytes is again a byte, so no explicit `% 256` is needed on the cipher layers
(the only arithmetic producing fresh values is `(i+1) % 256`, taken verbatim
from the source).
-/

namespace QShield

/-- A byte string: list of byte values. -/
abbrev Bytes := List Nat

/-- ASCII bytes of the field separator `"::"`. -/
def sep : Bytes := [58, 58]

/-- ASCII bytes of the version tag `"v1.0"`. -/
def version : Bytes := [118, 49, 46, 48]

/-- ASCII bytes of the default marker `"ARTIFACT_SHIELD_ENCRYPTED"`
(config key `encryption_marker`). -/
def defaultMarker : Bytes :=
  [65, 82, 84, 73, 70, 65, 67, 84, 95, 83, 72, 73, 69, 76, 68, 95,
   69, 78, 67, 82, 89, 80, 84, 69, 68]

/-- ASCII bytes of the artifact extension `".enc"`. -/
def dotEnc : Bytes := [46, 101, 110, 99]

/-- ASCII bytes of the extension `".tmp"`. -/
def dotTmp : Bytes := [46, 116, 109, 112]

/-- `beginsWith pat s` : `pat` is an initial run of `s` (Python `s.startswith(pat)`). -/
def beginsWith : Bytes → Bytes → Bool
  | [], _ => true
  | _ :: _, [] => false
  | a :: pat, b :: s => if a = b then beginsWith pat s else false

/-- `endsWith s suf` : Python `s.endswith(suf)`. -/
def endsWith (s suf : Bytes) : Bool :=
  beginsWith suf (s.drop (s.length - suf.length))

/-- `xorMask f i d` XORs every byte of `d` with a mask depending on its
absolute index, starting at index `i`: the shape of each of the three cipher
loops `for i in range(len(buf)): buf[i] ^= mask(i)` (loop direction is
irrelevant since each iteration touches exactly one cell). -/
def xorMask (f : Nat → Nat) : Nat → Bytes → Bytes
  | _, [] => []
  | i, b :: rest => (b ^^^ f i) :: xorMask f (i + 1) rest

/-- Layer 1 of `encrypt_data`: `encrypted[i] ^= encryption_key[i % key_length]`. -/
def layer1 (key : Bytes) (d : Bytes) : Bytes :=
  xorMask (fun i => key.getD (i % key.length) 0) 0 d

/-- Layer 2: `encrypted[i] ^= encryption_key[(len(encrypted) - i - 1) % key_length]`
(the Python loop runs `i` descending, but each step touches only cell `i`). -/
def layer2 (key : Bytes) (d : Bytes) : Bytes :=
  xorMask (fun i => key.getD ((d.length - i - 1) % key.length) 0) 0 d

/-- Layer 3: `encrypted[i] ^= (i + 1) % 256`. -/
def layer3 (d : Bytes) : Bytes :=
  xorMask (fun i => (i + 1) % 256) 0 d

/-- `derive_encryption_key`: the three chained hash rounds
(`sha3_512`, `blake2b`, `sha512`) are abstracted as a single function
`hash3` applied to the bytes of `f"{user_passphrase}::{file_salt}"`;
the real composite always returns a 64-byte digest. -/
def derive_encryption_key (hash3 : Bytes → Bytes)
    (user_passphrase file_salt : Bytes) : Bytes :=
  hash3 (user_passphrase ++ sep ++ file_salt)

/-- `encrypt_data(plaintext_bytes, user_key)`: the freshly drawn salt
(`secrets.token_hex(32)`, 64 lowercase hex characters) is passed explicitly as
`file_salt`.  Produces `marker::v1.0::salt::ciphertext`. -/
def encrypt_data (hash3 : Bytes → Bytes) (marker : Bytes)
    (plaintext user_key file_salt : Bytes) : Bytes :=
  let key := derive_encryption_key hash3 user_key file_salt
  marker ++ sep ++ version ++ sep ++ file_salt ++ sep ++
    layer3 (layer2 key (layer1 key plaintext))

/-- First-occurrence split: `firstSplit sp s = some (pre, post)` when `s`
decomposes as `pre ++ sp ++ post` at the leftmost occurrence of `sp`;
`none` when `sp` does not occur in `s`. -/
def firstSplit (sp : Bytes) : Bytes → Option (Bytes × Bytes)
  | [] => none
  | a :: rest =>
    if beginsWith sp (a :: rest) then some ([], (a :: rest).drop sp.length)
    else
      match firstSplit sp rest with
      | some (pre, post) => some (a :: pre, post)
      | none => none

/-- Python `bytes.split(sp, maxsplit)`: split at the leftmost occurrences,
at most `maxsplit` times, the remainder kept whole. -/
def pySplit (sp : Bytes) : Nat → Bytes → List Bytes
  | 0, s => [s]
  | m + 1, s =>
    match firstSplit sp s with
    | none => [s]
    | some (pre, post) => pre :: pySplit sp m post

/-- `decrypt_data(encrypted_package, user_key)`: split on `"::"` capped at 4
parts, reject when not exactly 4 parts or the marker field differs from the
configured marker, then undo the three layers in reverse order.
(Byte-level equality of the marker field stands for the source's
`marker.decode("utf-8") != config_marker` test: UTF-8 decoding is injective
and a decode failure is caught and also yields `None`.) -/
def decrypt_data (hash3 : Bytes → Bytes) (marker : Bytes)
    (encrypted_package user_key : Bytes) : Option Bytes :=
  match pySplit sep 3 encrypted_package with
  | [mk, _ver, salt_bytes, enc] =>
    if mk = marker then
      let key := derive_encryption_key hash3 user_key salt_bytes
      some (layer1 key (layer2 key (layer3 enc)))
    else none
  | _ => none

/-- A lowercase hex digit byte (`secrets.token_hex` output alphabet). -/
def isHexDigit (b : Nat) : Bool :=
  (48 ≤ b && b ≤ 57) || (97 ≤ b && b ≤ 102)

/-- A salt exactly as `encrypt_data` draws it: 64 lowercase hex characters
(`secrets.token_hex(32)`). -/
def isDrawnSalt (s : Bytes) : Prop :=
  s.length = 64 ∧ ∀ b ∈ s, isHexDigit b = true

instance (s : Bytes) : Decidable (isDrawnSalt s) := by
  unfold isDrawnSalt; infer_instance

/-- A concrete executable stand-in for the three chained hash rounds:
deterministic, always 64 bytes; used to instantiate closed statements. -/
def testHash3 (x : Bytes) : Bytes :=
  (List.range 64).map (fun i => (x.foldl (fun a b => a + b) i) % 256)

/-! ## File-system model and the per-file codec -/

/-- A working tree: association list from a path (the bytes of its string
form, relative to the repository root) to file contents; first match wins
and `fsWrite` keeps keys unique. -/
abbrev FS := List (Bytes × Bytes)

def fsRead : FS → Bytes → Option Bytes
  | [], _ => none
  | (q, c) :: rest, p => if q = p then some c else fsRead rest p

def fsWrite : FS → Bytes → Bytes → FS
  | [], p, c => [(p, c)]
  | (q, d) :: rest, p, c =>
    if q = p then (p, c) :: rest else (q, d) :: fsWrite rest p c

def fsErase : FS → Bytes → FS
  | [], _ => []
  | (q, d) :: rest, p =>
    if q = p then fsErase rest p else (q, d) :: fsErase rest p

/-- Python `pat in s` (substring test). -/
def containsSub (pat s : Bytes) : Bool :=
  (firstSplit pat s).isSome

/-- The default `exclude_patterns`:
`".shield"`, `"backups"`, `"scripts/shield"`, `"node_modules"`, `".git"`. -/
def excludePatterns : List Bytes :=
  [[46, 115, 104, 105, 101, 108, 100],
   [98, 97, 99, 107, 117, 112, 115],
   [115, 99, 114, 105, 112, 116, 115, 47, 115, 104, 105, 101, 108, 100],
   [110, 111, 100, 101, 95, 109, 111, 100, 117, 108, 101, 115],
   [46, 103, 105, 116]]

/-- ASCII bytes of `"quantum_shield.py"` (the tool never encrypts itself). -/
def selfName : Bytes :=
  [113, 117, 97, 110, 116, 117, 109, 95, 115, 104, 105, 101, 108, 100,
   46, 112, 121]

/-- `should_exclude(file_path)`: some configured pattern is a substring of
the path string, or the path ends with `quantum_shield.py`. -/
def should_exclude (path : Bytes) : Bool :=
  excludePatterns.any (fun pat => containsSub pat path) || endsWith path selfName

/-- `is_encrypted(file_path)`: the configured marker occurs somewhere in the
first 100 bytes; an unreadable (absent) file counts as not encrypted. -/
def is_encrypted (marker : Bytes) (fs : FS) (path : Bytes) : Bool :=
  match fsRead fs path with
  | none => false
  | some content => containsSub marker (content.take 100)

/-- The configuration fields `encrypt_file`/`decrypt_file` consult. -/
structure Config where
  marker : Bytes
  deleteOriginal : Bool
  dryRun : Bool

/-- `encrypt_file(file_path, user_key)`: skip excluded paths (returning
false), treat already-marked files as success without touching anything,
otherwise read the plaintext, write the package to `path + ".enc"` and delete
the original only when configured to.  A missing file raises inside the
`try`, is caught, and yields false. -/
def encrypt_file (hash3 : Bytes → Bytes) (cfg : Config) (fs : FS)
    (path user_key file_salt : Bytes) : Bool × FS :=
  if should_exclude path then (false, fs)
  else if is_encrypted cfg.marker fs path then (true, fs)
  else
    match fsRead fs path with
    | none => (false, fs)
    | some plaintext =>
      let fs1 := fsWrite fs (path ++ dotEnc)
        (encrypt_data hash3 cfg.marker plaintext user_key file_salt)
      (true, if cfg.deleteOriginal && !cfg.dryRun then fsErase fs1 path else fs1)

/-- `file_path.parent / file_path.stem` for a path that ends in `".enc"`
(the only case `decrypt_file` reaches it): drop the 4 suffix bytes.
(`Path.stem` on a basename that is bare `".enc"` would instead keep it;
no governed path has an empty stem.) -/
def stemEnc (path : Bytes) : Bytes :=
  path.take (path.length - 4)

/-- `decrypt_file(file_path, user_key)`: refuse paths not ending in `".enc"`,
read the package, return false when `decrypt_data` gives `None`, otherwise
write the plaintext to the path with `".enc"` stripped and delete the
artifact. -/
def decrypt_file (hash3 : Bytes → Bytes) (cfg : Config) (fs : FS)
    (path user_key : Bytes) : Bool × FS :=
  if endsWith path dotEnc = false then (false, fs)
  else
    match fsRead fs path with
    | none => (false, fs)
    | some enc =>
      match decrypt_data hash3 cfg.marker enc user_key with
      | none => (false, fs)
      | some pt => (true, fsErase (fsWrite fs (stemEnc path) pt) path)

/-! ## The batch transaction coordinator (encrypt_and_commit_main_files.py) -/

/-- The batch script forces `delete_original_after_encrypt = False` and
`dry_run = False` on the shield before encrypting. -/
def batchCfg : Config := ⟨defaultMarker, false, false⟩

/-- `p.name`: the basename, the part of the path after the last `/`. -/
def basename (p : Bytes) : Bytes :=
  (p.reverse.takeWhile (fun b => b != 47)).reverse

/-- Transaction state of one batch run: working tree, ephemeral safety store
(`tmpdir`, KEYED BY BASENAME, modelling `tmpdir / p.name`), the staged paths,
the recorded `orig_copies` pairs `(full, p.name)`, and the failure flag. -/
structure BatchSt where
  fs : FS
  tmp : FS
  staged : List Bytes
  origCopies : List (Bytes × Bytes)
  failed : Bool
deriving DecidableEq

/-- One iteration of the encryption loop for sensitive entry `p`
(`file_salt` is the salt drawn inside that iteration's `encrypt_data`).
`failed = true` models control having already left the loop via `break`.
A missing source file prints `Missing file, skipping` and continues,
touching nothing.  Otherwise: copy the original to `tmpdir / p.name`,
record it in `orig_copies`, call `encrypt_file`; on failure or a missing
artifact set `failed` and break, else `git add` the artifact and
`git rm -f` the plaintext (which deletes it from the working tree). -/
def encStep (hash3 : Bytes → Bytes) (passphrase file_salt : Bytes)
    (st : BatchSt) (p : Bytes) : BatchSt :=
  if st.failed then st
  else
    match fsRead st.fs p with
    | none => st
    | some content =>
      let tmp1 := fsWrite st.tmp (basename p) content
      let oc := st.origCopies ++ [(p, basename p)]
      let r := encrypt_file hash3 batchCfg st.fs p passphrase file_salt
      if r.1 = false then
        { st with tmp := tmp1, origCopies := oc, fs := r.2, failed := true }
      else
        match fsRead r.2 (p ++ dotEnc) with
        | none => { st with tmp := tmp1, origCopies := oc, fs := r.2, failed := true }
        | some _ =>
          { fs := fsErase r.2 p
            tmp := tmp1
            staged := st.staged ++ [p ++ dotEnc]
            origCopies := oc
            failed := false }

/-- The encryption loop over the manifest's sensitive entries, in order;
`salts i` is the salt drawn during iteration `i`. -/
def encLoop (hash3 : Bytes → Bytes) (passphrase : Bytes) (salts : Nat → Bytes) :
    Nat → BatchSt → List Bytes → BatchSt
  | _, st, [] => st
  | i, st, p :: rest =>
    encLoop hash3 passphrase salts (i + 1)
      (encStep hash3 passphrase (salts i) st p) rest

/-- The rollback restore loop: for each recorded pair in order,
`if not full.exists() and tmp.exists(): shutil.copy2(tmp, full)`. -/
def restoreAll (tmp : FS) : List (Bytes × Bytes) → FS → FS
  | [], fs => fs
  | (full, tk) :: rest, fs =>
    restoreAll tmp rest
      (if fsRead fs full = none then
        match fsRead tmp tk with
        | some b => fsWrite fs full b
        | none => fs
      else fs)

/-- The encryption phase of the batch: run the loop; on failure `git reset`
(unstage everything) and restore originals from the safety store, aborting
with exit 1 before any commit.  Returns the final transaction state and
whether the batch went on to commit. -/
def runBatchEnc (hash3 : Bytes → Bytes) (passphrase : Bytes)
    (salts : Nat → Bytes) (sensitive : List Bytes) (fs0 : FS) :
    BatchSt × Bool :=
  let st := encLoop hash3 passphrase salts 0 ⟨fs0, [], [], [], false⟩ sensitive
  if st.failed then
    ({ st with staged := [], fs := restoreAll st.tmp st.origCopies st.fs }, false)
  else (st, true)

/-- State of the post-commit verification loop.  `crashed` models an
uncaught exception (`shutil.copy2` on a missing file), which aborts the
whole script with a traceback. -/
structure VerSt where
  fs : FS
  failed : Bool
  crashed : Bool
deriving DecidableEq

/-- One iteration of the post-commit verification loop over `orig_copies`,
with `backup` the extracted backup snapshot and `tmp` the safety store:
skip (with only a warning) entries absent from the backup; copy the
committed artifact to `<artifact>.enc.tmp`; run `decrypt_file` on that copy
(failure marks the run failed and breaks); on success compare the restored
bytes with the backup (mismatch or missing restored file marks failed and
breaks), and finally put the plaintext back from the safety store. -/
def verStep (hash3 : Bytes → Bytes) (passphrase : Bytes) (backup tmp : FS)
    (st : VerSt) (e : Bytes × Bytes) : VerSt :=
  if st.failed || st.crashed then st
  else
    match fsRead backup e.1 with
    | none => st
    | some origBytes =>
      match fsRead st.fs (e.1 ++ dotEnc) with
      | none => { st with crashed := true }
      | some encBytes =>
        let fs1 := fsWrite st.fs (e.1 ++ dotEnc ++ dotTmp) encBytes
        let r := decrypt_file hash3 batchCfg fs1 (e.1 ++ dotEnc ++ dotTmp) passphrase
        if r.1 = false then { st with fs := r.2, failed := true }
        else
          match fsRead r.2 e.1 with
          | none => { st with fs := r.2, failed := true }
          | some restored =>
            if restored = origBytes then
              match fsRead tmp e.2 with
              | some b => { st with fs := fsWrite r.2 e.1 b }
              | none => { st with fs := r.2, crashed := true }
            else { st with fs := r.2, failed := true }

/-- The verification loop over the recorded `orig_copies`, in order. -/
def verLoop (hash3 : Bytes → Bytes) (passphrase : Bytes) (backup tmp : FS) :
    VerSt → List (Bytes × Bytes) → VerSt
  | st, [] => st
  | st, e :: rest =>
    verLoop hash3 passphrase backup tmp
      (verStep hash3 passphrase backup tmp st e) rest

/-- Outcome of a whole batch run: final working tree, the tree at commit
time, whether a commit (and push) happened, and whether the script reports
overall success (exit code 0). -/
structure BatchOutcome where
  fs : FS
  fsAtCommit : FS
  committed : Bool
  success : Bool
deriving DecidableEq

/-- A whole batch run: fresh backup of the tree (the zip snapshots the tree
before any mutation, so the backup contents are `fs0`), encryption phase,
commit & push when it succeeded, then post-commit verification against the
extracted backup. -/
def runBatch (hash3 : Bytes → Bytes) (passphrase : Bytes) (salts : Nat → Bytes)
    (sensitive : List Bytes) (fs0 : FS) : BatchOutcome :=
  let r := runBatchEnc hash3 passphrase salts sensitive fs0
  if r.2 = false then
    { fs := r.1.fs, fsAtCommit := r.1.fs, committed := false, success := false }
  else
    let v := verLoop hash3 passphrase fs0 r.1.tmp ⟨r.1.fs, false, false⟩
      r.1.origCopies
    { fs := v.fs, fsAtCommit := r.1.fs, committed := true,
      success := !(v.failed || v.crashed) }

/-! ## Batch scenarios used by the closed theorems -/

/-- Manifest `["a/f", "b/f", "backups/x"]`: two entries with the same
basename `f`, and a third whose encryption fails (its path matches the
exclusion pattern `backups`, so `encrypt_file` returns false). -/
def c2Manifest : List Bytes :=
  [[97, 47, 102], [98, 47, 102], [98, 97, 99, 107, 117, 112, 115, 47, 120]]

/-- Working tree for `c2Manifest`: `a/f` holds byte 1, `b/f` holds byte 2,
`backups/x` holds byte 3. -/
def c2Tree : FS :=
  [([97, 47, 102], [1]), ([98, 47, 102], [2]),
   ([98, 97, 99, 107, 117, 112, 115, 47, 120], [3])]

/-- A one-entry working tree: `a/f` holds byte 5. -/
def oneEntryTree : FS := [([97, 47, 102], [5])]

/-- Manifest `["m", "g"]` whose first entry does not exist in `c4Tree`. -/
def c4Manifest : List Bytes := [[109], [103]]

/-- Working tree for `c4Manifest`: only `g` exists (holding byte 7). -/
def c4Tree : FS := [([103], [7])]

/-! ## Basic lemmas about the cipher layers -/

theorem xorMask_length (f : Nat → Nat) (i : Nat) (d : Bytes) :
    (xorMask f i d).length = d.length := by
  induction d generalizing i with
  | nil => rfl
  | cons b rest ih => simp [xorMask, ih]

theorem xorMask_xorMask (f : Nat → Nat) (i : Nat) (d : Bytes) :
    xorMask f i (xorMask f i d) = d := by
  induction d generalizing i with
  | nil => rfl
  | cons b rest ih =>
    simp [xorMask, ih, Nat.xor_assoc, Nat.xor_self, Nat.xor_zero]

theorem layer1_layer1 (key d : Bytes) : layer1 key (layer1 key d) = d :=
  xorMask_xorMask _ 0 d

theorem layer3_layer3 (d : Bytes) : layer3 (layer3 d) = d :=
  xorMask_xorMask _ 0 d

theorem layer1_length (key d : Bytes) : (layer1 key d).length = d.length :=
  xorMask_length _ 0 d

theorem layer2_length (key d : Bytes) : (layer2 key d).length = d.length :=
  xorMask_length _ 0 d

theorem layer3_length (d : Bytes) : (layer3 d).length = d.length :=
  xorMask_length _ 0 d

theorem layer2_layer2 (key d : Bytes) : layer2 key (layer2 key d) = d := by
  unfold layer2
  rw [xorMask_length]
  exact xorMask_xorMask _ 0 d

/-! ## The package splits back into its four fields -/

theorem beginsWith_append (pat t : Bytes) : beginsWith pat (pat ++ t) = true := by
  induction pat with
  | nil => rfl
  | cons a pat ih => simp [beginsWith, ih]

/-- The split finds the separator right after a colon-free field. -/
theorem firstSplit_sep_append (a r : Bytes) (ha : ∀ b ∈ a, b ≠ 58) :
    firstSplit sep (a ++ sep ++ r) = some (a, r) := by
  induction a with
  | nil =>
    show firstSplit sep (58 :: 58 :: r) = some ([], r)
    rw [firstSplit, if_pos]
    · rfl
    · exact beginsWith_append sep r
  | cons x xs ih =>
    have hx : x ≠ 58 := ha x (List.mem_cons_self x xs)
    show firstSplit sep (x :: (xs ++ sep ++ r)) = some (x :: xs, r)
    rw [firstSplit, if_neg, ih (fun b hb => ha b (List.mem_cons_of_mem x hb))]
    simp only [beginsWith, sep]
    rw [if_neg (fun h => hx h.symm)]
    simp

theorem pySplit_cons (sp : Bytes) (m : Nat) (s pre post : Bytes)
    (h : firstSplit sp s = some (pre, post)) :
    pySplit sp (m + 1) s = pre :: pySplit sp m post := by
  rw [pySplit, h]

theorem pySplit_package (mk v s c : Bytes)
    (hm : ∀ b ∈ mk, b ≠ 58) (hv : ∀ b ∈ v, b ≠ 58) (hs : ∀ b ∈ s, b ≠ 58) :
    pySplit sep 3 (mk ++ sep ++ v ++ sep ++ s ++ sep ++ c) = [mk, v, s, c] := by
  have h1 : mk ++ sep ++ v ++ sep ++ s ++ sep ++ c
      = mk ++ sep ++ (v ++ sep ++ (s ++ sep ++ c)) := by
    simp [List.append_assoc]
  have s1 : pySplit sep 3 (mk ++ sep ++ (v ++ sep ++ (s ++ sep ++ c)))
      = mk :: pySplit sep 2 (v ++ sep ++ (s ++ sep ++ c)) :=
    pySplit_cons sep 2 _ _ _ (firstSplit_sep_append mk _ hm)
  have s2 : pySplit sep 2 (v ++ sep ++ (s ++ sep ++ c))
      = v :: pySplit sep 1 (s ++ sep ++ c) :=
    pySplit_cons sep 1 _ _ _ (firstSplit_sep_append v _ hv)
  have s3 : pySplit sep 1 (s ++ sep ++ c) = s :: pySplit sep 0 c :=
    pySplit_cons sep 0 _ _ _ (firstSplit_sep_append s _ hs)
  rw [h1, s1, s2, s3]
  rfl

/-! ## Decrypting a well-formed package -/

theorem hexDigit_ne_colon (b : Nat) (h : isHexDigit b = true) : b ≠ 58 := by
  intro he
  subst he
  simp [isHexDigit] at h

theorem salt_ne_colon {salt : Bytes} (hs : isDrawnSalt salt) :
    ∀ b ∈ salt, b ≠ 58 :=
  fun b hb => hexDigit_ne_colon b (hs.2 b hb)

theorem decrypt_data_eq (hash3 : Bytes → Bytes) (marker pkg K : Bytes)
    (mk v s c : Bytes) (hsplit : pySplit sep 3 pkg = [mk, v, s, c])
    (hmk : mk = marker) :
    decrypt_data hash3 marker pkg K
      = some (layer1 (derive_encryption_key hash3 K s)
          (layer2 (derive_encryption_key hash3 K s) (layer3 c))) := by
  unfold decrypt_data
  rw [hsplit]
  show (if mk = marker then
      some (layer1 (derive_encryption_key hash3 K s)
        (layer2 (derive_encryption_key hash3 K s) (layer3 c)))
    else none) = _
  rw [if_pos hmk]

/-- Decrypting a freshly produced package with any passphrase `K2`
yields the four layers applied in sequence (the two layer-3 passes cancel). -/
theorem decrypt_encrypt_general (hash3 : Bytes → Bytes)
    (marker P K1 K2 salt : Bytes)
    (hm : ∀ b ∈ marker, b ≠ 58) (hs : ∀ b ∈ salt, b ≠ 58) :
    decrypt_data hash3 marker (encrypt_data hash3 marker P K1 salt) K2
      = some (layer1 (derive_encryption_key hash3 K2 salt)
          (layer2 (derive_encryption_key hash3 K2 salt)
            (layer2 (derive_encryption_key hash3 K1 salt)
              (layer1 (derive_encryption_key hash3 K1 salt) P)))) := by
  have hsplit : pySplit sep 3 (encrypt_data hash3 marker P K1 salt)
      = [marker, version, salt,
         layer3 (layer2 (derive_encryption_key hash3 K1 salt)
           (layer1 (derive_encryption_key hash3 K1 salt) P))] :=
    pySplit_package marker version salt _ hm (by decide) hs
  rw [decrypt_data_eq hash3 marker _ K2 marker version salt _ hsplit rfl,
      layer3_layer3]

/-- C1: round trip.  For every plaintext `P`, every passphrase `K` and every
salt the encryption draws (64 lowercase hex characters),
`decrypt_data (encrypt_data P K) K = P`. -/
theorem C1_round_trip (hash3 : Bytes → Bytes) (P K salt : Bytes)
    (hs : isDrawnSalt salt) :
    decrypt_data hash3 defaultMarker
      (encrypt_data hash3 defaultMarker P K salt) K = some P := by
  rw [decrypt_encrypt_general hash3 defaultMarker P K K salt (by decide)
        (salt_ne_colon hs),
      layer2_layer2, layer1_layer1]

theorem C1_round_trip_witness :
    isDrawnSalt (List.replicate 64 48) ∧
    decrypt_data testHash3 defaultMarker
      (encrypt_data testHash3 defaultMarker [104, 105] [107, 49, 50]
        (List.replicate 64 48)) [107, 49, 50] = some [104, 105] :=
  ⟨by decide,
   C1_round_trip testHash3 [104, 105] [107, 49, 50] (List.replicate 64 48)
     (by decide)⟩

/-- C9: package framing.  For every plaintext and passphrase, and any salt the
encryption draws, the package is byte-exactly
`MARKER :: "::" :: "v1.0" :: "::" :: SALT :: "::" :: CIPHERTEXT` with the
ciphertext exactly as long as the plaintext; and `decrypt_data` returns `none`
for any input that does not split (on `"::"`, capped at 4 parts) into exactly
4 fields or whose marker field differs from the configured marker. -/
theorem C9_framing (hash3 : Bytes → Bytes) (P K salt : Bytes)
    (_hs : isDrawnSalt salt) :
    (∃ C : Bytes,
        encrypt_data hash3 defaultMarker P K salt
          = defaultMarker ++ sep ++ version ++ sep ++ salt ++ sep ++ C
        ∧ C.length = P.length)
    ∧ ∀ pkg K2 : Bytes,
        (match pySplit sep 3 pkg with
         | [mk, _, _, _] => mk ≠ defaultMarker
         | _ => True) →
        decrypt_data hash3 defaultMarker pkg K2 = none := by
  constructor
  · exact ⟨layer3 (layer2 (derive_encryption_key hash3 K salt)
        (layer1 (derive_encryption_key hash3 K salt) P)), rfl,
      by rw [layer3_length, layer2_length, layer1_length]⟩
  · intro pkg K2 h
    unfold decrypt_data
    split
    · next mk _ver salt_bytes enc heq =>
      rw [heq] at h
      exact if_neg h
    · rfl

theorem C9_framing_witness :
    isDrawnSalt (List.replicate 64 48) ∧
    decrypt_data testHash3 defaultMarker [120, 58, 58, 121] [107] = none :=
  ⟨by decide,
   (C9_framing testHash3 [104] [107] (List.replicate 64 48) (by decide)).2
     [120, 58, 58, 121] [107] (by trivial)⟩

/-! ## C7: wrong-key decryption -/

/-- On a singleton buffer, layer 2's mask coincides with layer 1's
(`(1 - 0 - 1) % keylen = 0 % keylen`), so the two key layers cancel. -/
theorem layer2_layer1_singleton (key : Bytes) (b : Nat) :
    layer2 key (layer1 key [b]) = [b] := by
  simp [layer1, layer2, xorMask, Nat.xor_assoc, Nat.xor_self, Nat.xor_zero]

theorem layer1_layer2_singleton (key : Bytes) (b : Nat) :
    layer1 key (layer2 key [b]) = [b] := by
  simp [layer1, layer2, xorMask, Nat.xor_assoc, Nat.xor_self, Nat.xor_zero]

/-- C7 counterexample: with distinct passphrases `"a"` and `"b"`, decrypting
the encryption of the one-byte plaintext `[0]` with the wrong passphrase
still returns exactly `[0]`: on buffers of length 1 the key-dependent layers
cancel each other, so the claimed inequality fails. -/
theorem C7_counterexample :
    ([97] : Bytes) ≠ [98] ∧
    decrypt_data testHash3 defaultMarker
      (encrypt_data testHash3 defaultMarker [0] [97] (List.replicate 64 48))
      [98] = some [0] := by
  constructor
  · decide
  · rw [decrypt_encrypt_general testHash3 defaultMarker [0] [97] [98]
          (List.replicate 64 48) (by decide) (by decide),
        layer2_layer1_singleton, layer1_layer2_singleton]

/-- C7 amended: wrong-key decryption is never rejected — it always returns
some byte string of the plaintext's length — and for plaintexts of length at
most 1 it returns exactly the original plaintext even though the passphrases
differ, because the two key-dependent layers cancel on such buffers. -/
theorem C7_amended (hash3 : Bytes → Bytes) (P K1 K2 salt : Bytes)
    (hs : isDrawnSalt salt) :
    ∃ Q : Bytes,
      decrypt_data hash3 defaultMarker
        (encrypt_data hash3 defaultMarker P K1 salt) K2 = some Q
      ∧ Q.length = P.length
      ∧ (P.length ≤ 1 → Q = P) := by
  refine ⟨_, decrypt_encrypt_general hash3 defaultMarker P K1 K2 salt
    (by decide) (salt_ne_colon hs), ?_, ?_⟩
  · rw [layer1_length, layer2_length, layer2_length, layer1_length]
  · intro hlen
    match P, hlen with
    | [], _ => rfl
    | [b], _ => rw [layer2_layer1_singleton, layer1_layer2_singleton]

/-! ## C8 and C10: the already-marked branch of encrypt_file -/

/-- C8 counterexample: a file under `backups/` (path `"backups/a"`) whose
first 100 bytes carry the marker.  `encrypt_file` returns false for it —
the exclusion check runs before the already-encrypted check — where the
claim demands true for every marked file. -/
theorem C8_counterexample :
    is_encrypted defaultMarker
      [([98, 97, 99, 107, 117, 112, 115, 47, 97], defaultMarker)]
      [98, 97, 99, 107, 117, 112, 115, 47, 97] = true
    ∧ (encrypt_file testHash3 ⟨defaultMarker, false, false⟩
        [([98, 97, 99, 107, 117, 112, 115, 47, 97], defaultMarker)]
        [98, 97, 99, 107, 117, 112, 115, 47, 97] [107]
        (List.replicate 64 48)).1 = false := by
  constructor
  · decide
  · decide

/-- C8 amended: for every NON-EXCLUDED file whose first 100 bytes contain
the configured marker, `encrypt_file` returns true and leaves the file
system unchanged (no artifact written, original untouched). -/
theorem C8_amended (hash3 : Bytes → Bytes) (cfg : Config) (fs : FS)
    (path user_key file_salt : Bytes)
    (hex : should_exclude path = false)
    (henc : is_encrypted cfg.marker fs path = true) :
    encrypt_file hash3 cfg fs path user_key file_salt = (true, fs) := by
  simp [encrypt_file, hex, henc]

theorem C8_amended_witness :
    should_exclude [97] = false
    ∧ is_encrypted defaultMarker [([97], defaultMarker)] [97] = true
    ∧ encrypt_file testHash3 ⟨defaultMarker, false, false⟩
        [([97], defaultMarker)] [97] [107] [48] = (true, [([97], defaultMarker)]) :=
  ⟨by decide, by decide,
   C8_amended testHash3 ⟨defaultMarker, false, false⟩ [([97], defaultMarker)]
     [97] [107] [48] (by decide) (by decide)⟩

/-- C10: any non-excluded file that merely CONTAINS the marker anywhere in
its first 100 bytes — even ordinary plaintext that quotes the marker and was
never produced by `encrypt_data` (it does not even start with the marker) —
is classified as already encrypted: `encrypt_file` reports success and
leaves the plaintext untouched on disk. -/
theorem C10_marker_false_positive (hash3 : Bytes → Bytes) (cfg : Config)
    (fs : FS) (path user_key file_salt content : Bytes)
    (hex : should_exclude path = false)
    (hc : fsRead fs path = some content)
    (hm : containsSub cfg.marker (content.take 100) = true)
    (_hnp : beginsWith cfg.marker content = false) :
    encrypt_file hash3 cfg fs path user_key file_salt = (true, fs) := by
  have henc : is_encrypted cfg.marker fs path = true := by
    unfold is_encrypted
    rw [hc]
    exact hm
  simp [encrypt_file, hex, henc]

theorem C10_witness :
    should_exclude [97] = false
    ∧ beginsWith defaultMarker (120 :: defaultMarker) = false
    ∧ encrypt_file testHash3 ⟨defaultMarker, false, false⟩
        [([97], 120 :: defaultMarker)] [97] [107] [48]
        = (true, [([97], 120 :: defaultMarker)]) :=
  ⟨by decide, by decide,
   C10_marker_false_positive testHash3 ⟨defaultMarker, false, false⟩
     [([97], 120 :: defaultMarker)] [97] [107] [48] (120 :: defaultMarker)
     (by decide) (by decide) (by decide) (by decide)⟩

theorem C7_amended_witness :
    isDrawnSalt (List.replicate 64 48) ∧
    ∃ Q : Bytes,
      decrypt_data testHash3 defaultMarker
        (encrypt_data testHash3 defaultMarker [0] [97] (List.replicate 64 48))
        [98] = some Q
      ∧ Q.length = 1 ∧ (1 ≤ 1 → Q = [0]) :=
  ⟨by decide,
   C7_amended testHash3 [0] [97] [98] (List.replicate 64 48) (by decide)⟩

/-! ## Supporting lemmas: suffix tests and file-system reads -/

theorem beginsWith_refl (s : Bytes) : beginsWith s s = true := by
  have h := beginsWith_append s []
  rwa [List.append_nil] at h

theorem endsWith_append_ext (x s1 s2 : Bytes) (h : s1.length = s2.length) :
    endsWith (x ++ s1) s2 = beginsWith s2 s1 := by
  unfold endsWith
  rw [List.length_append, h, Nat.add_sub_cancel, List.drop_left]

theorem endsWith_append_self (x s : Bytes) : endsWith (x ++ s) s = true := by
  rw [endsWith_append_ext x s s rfl]
  exact beginsWith_refl s

theorem endsWith_tmp_not_enc (x : Bytes) : endsWith (x ++ dotTmp) dotEnc = false := by
  rw [endsWith_append_ext x dotTmp dotEnc rfl]
  decide

theorem endsWith_enc_not_tmp (x : Bytes) : endsWith (x ++ dotEnc) dotTmp = false := by
  rw [endsWith_append_ext x dotEnc dotTmp rfl]
  decide

/-- `decrypt_file` refuses any path that does not end in `".enc"`. -/
theorem decrypt_file_not_enc (hash3 : Bytes → Bytes) (cfg : Config) (fs : FS)
    (path user_key : Bytes) (h : endsWith path dotEnc = false) :
    decrypt_file hash3 cfg fs path user_key = (false, fs) := by
  unfold decrypt_file
  rw [if_pos h]

theorem fsRead_fsWrite_ne (fs : FS) (k v q : Bytes) (h : k ≠ q) :
    fsRead (fsWrite fs k v) q = fsRead fs q := by
  induction fs with
  | nil => simp [fsWrite, fsRead, h]
  | cons e rest ih =>
    obtain ⟨a, c⟩ := e
    by_cases ha : a = k
    · subst ha
      simp [fsWrite, fsRead, h]
    · simp [fsWrite, fsRead, ha, ih]

/-- Every file the verification loop writes has a name ending in `".tmp"`
(the `<artifact>.enc.tmp` copies), so any other path reads back unchanged. -/
theorem verStep_fs_preserve (hash3 : Bytes → Bytes) (passphrase : Bytes)
    (backup tmp : FS) (st : VerSt) (e : Bytes × Bytes) (q : Bytes)
    (hq : endsWith q dotTmp = false) :
    fsRead (verStep hash3 passphrase backup tmp st e).fs q = fsRead st.fs q := by
  have hne : e.1 ++ dotEnc ++ dotTmp ≠ q := by
    intro hk
    have hself := endsWith_append_self (e.1 ++ dotEnc) dotTmp
    rw [hk, hq] at hself
    exact Bool.false_ne_true hself
  unfold verStep
  by_cases hb : st.failed || st.crashed
  · rw [if_pos hb]
  · rw [if_neg hb]
    cases hbk : fsRead backup e.1 with
    | none => rfl
    | some origBytes =>
      cases henc : fsRead st.fs (e.1 ++ dotEnc) with
      | none => rfl
      | some encBytes =>
        have hde := decrypt_file_not_enc hash3 batchCfg
          (fsWrite st.fs (e.1 ++ dotEnc ++ dotTmp) encBytes)
          (e.1 ++ dotEnc ++ dotTmp) passphrase
          (endsWith_tmp_not_enc (e.1 ++ dotEnc))
        simp only [hde]
        exact fsRead_fsWrite_ne st.fs _ encBytes q hne

theorem verLoop_fs_preserve (hash3 : Bytes → Bytes) (passphrase : Bytes)
    (backup tmp : FS) (entries : List (Bytes × Bytes)) (st : VerSt)
    (q : Bytes) (hq : endsWith q dotTmp = false) :
    fsRead (verLoop hash3 passphrase backup tmp st entries).fs q
      = fsRead st.fs q := by
  induction entries generalizing st with
  | nil => rfl
  | cons e rest ih =>
    exact (ih (verStep hash3 passphrase backup tmp st e)).trans
      (verStep_fs_preserve hash3 passphrase backup tmp st e q hq)

/-! ## C2: batch rollback and the basename-keyed safety store -/

/-- C2 failing run: with manifest `["a/f", "b/f", "backups/x"]` the third
entry fails during encryption (exclusion), the batch aborts uncommitted and
unstages everything — but the rollback restores `a/f` from the safety-store
slot keyed by the shared basename `f`, which the second entry overwrote:
`a/f` ends up holding `b/f`'s byte 2 instead of its original byte 1. -/
theorem C2_basename_collision :
    (runBatchEnc testHash3 [107] (fun _ => [48]) c2Manifest c2Tree).2 = false
    ∧ (runBatchEnc testHash3 [107] (fun _ => [48]) c2Manifest c2Tree).1.staged = []
    ∧ fsRead c2Tree [97, 47, 102] = some [1]
    ∧ fsRead (runBatchEnc testHash3 [107] (fun _ => [48]) c2Manifest c2Tree).1.fs
        [97, 47, 102] = some [2] := by
  refine ⟨by decide, by decide, by decide, by decide⟩

/-! ## C3: post-commit verification with nothing corrupted -/

/-- C3 failing run: a one-entry batch commits, nothing is corrupted — the
committed artifact is byte-exactly the package whose decryption with the
batch passphrase yields the original plaintext — yet the run reports
failure: verification hands `decrypt_file` a copy named `a/f.enc.tmp`,
which it rejects for not ending in `".enc"`. -/
theorem C3_verification_always_fails :
    (runBatch testHash3 [107] (fun _ => [48]) [[97, 47, 102]] oneEntryTree).committed
      = true
    ∧ fsRead (runBatch testHash3 [107] (fun _ => [48]) [[97, 47, 102]]
        oneEntryTree).fsAtCommit [97, 47, 102, 46, 101, 110, 99]
      = some (defaultMarker ++ sep ++ version ++ sep ++ [48] ++ sep ++ [4])
    ∧ decrypt_data testHash3 defaultMarker
        (defaultMarker ++ sep ++ version ++ sep ++ [48] ++ sep ++ [4]) [107]
      = some [5]
    ∧ (runBatch testHash3 [107] (fun _ => [48]) [[97, 47, 102]] oneEntryTree).success
      = false := by
  refine ⟨by decide, by decide, by decide, by decide⟩

/-! ## C4: a missing source file during the encryption loop -/

/-- C4 counterexample: with manifest `["m", "g"]` where `m` does not exist,
the batch does NOT fail and DOES process the later entry: it commits, and
`g`'s artifact is staged.  The claim demanded the batch be marked failed
with no entry after the missing one processed. -/
theorem C4_counterexample :
    (runBatchEnc testHash3 [107] (fun _ => [48]) c4Manifest c4Tree).2 = true
    ∧ (runBatchEnc testHash3 [107] (fun _ => [48]) c4Manifest c4Tree).1.staged
      = [[103, 46, 101, 110, 99]] := by
  refine ⟨by decide, by decide⟩

/-- C4 amended: a missing source file is skipped with only a message — the
iteration leaves the transaction state exactly unchanged (nothing copied,
encrypted or staged, no failure recorded) and processing continues with the
next entry. -/
theorem C4_amended (hash3 : Bytes → Bytes) (passphrase file_salt : Bytes)
    (st : BatchSt) (p : Bytes) (hmiss : fsRead st.fs p = none) :
    encStep hash3 passphrase file_salt st p = st := by
  by_cases hf : st.failed
  · simp [encStep, hf]
  · simp [encStep, hf, hmiss]

theorem C4_amended_witness :
    fsRead ([] : FS) [109] = none
    ∧ encStep testHash3 [107] [48] ⟨[], [], [], [], false⟩ [109]
      = ⟨[], [], [], [], false⟩ := by
  refine ⟨by decide, C4_amended testHash3 [107] [48] ⟨[], [], [], [], false⟩
    [109] (by decide)⟩

/-! ## C5: the tree the verification loop leaves behind -/

/-- C5 counterexample: after the one-entry batch run, the working tree is
NOT exactly as committed: verification leaves the extra copy
`a/f.enc.tmp`, absent at commit time and never cleaned up. -/
theorem C5_counterexample :
    fsRead (runBatch testHash3 [107] (fun _ => [48]) [[97, 47, 102]]
        oneEntryTree).fsAtCommit
      [97, 47, 102, 46, 101, 110, 99, 46, 116, 109, 112] = none
    ∧ fsRead (runBatch testHash3 [107] (fun _ => [48]) [[97, 47, 102]]
        oneEntryTree).fs
      [97, 47, 102, 46, 101, 110, 99, 46, 116, 109, 112] ≠ none
    ∧ (runBatch testHash3 [107] (fun _ => [48]) [[97, 47, 102]] oneEntryTree).fs
      ≠ (runBatch testHash3 [107] (fun _ => [48]) [[97, 47, 102]]
          oneEntryTree).fsAtCommit := by
  refine ⟨by decide, by decide, by decide⟩

/-- C5 amended: whatever the verification loop's outcome, for every entry
path `p` (not itself `".tmp"`-suffixed) whose plaintext was absent and whose
artifact was present at commit time, the plaintext is still absent and the
artifact still present, byte-identical, afterwards — the loop only ever
writes `<artifact>.enc.tmp` copies; but those copies are left behind, so
the tree is not exactly the committed tree. -/
theorem C5_amended (hash3 : Bytes → Bytes) (passphrase : Bytes)
    (backup tmp fsC : FS) (entries : List (Bytes × Bytes)) (p c : Bytes)
    (hp : endsWith p dotTmp = false)
    (ha : fsRead fsC p = none)
    (he : fsRead fsC (p ++ dotEnc) = some c) :
    fsRead (verLoop hash3 passphrase backup tmp ⟨fsC, false, false⟩ entries).fs p
      = none
    ∧ fsRead (verLoop hash3 passphrase backup tmp ⟨fsC, false, false⟩ entries).fs
        (p ++ dotEnc) = some c := by
  constructor
  · rw [verLoop_fs_preserve hash3 passphrase backup tmp entries _ p hp]
    exact ha
  · rw [verLoop_fs_preserve hash3 passphrase backup tmp entries _ (p ++ dotEnc)
      (endsWith_enc_not_tmp p)]
    exact he

theorem C5_amended_witness :
    endsWith [97, 47, 102] dotTmp = false
    ∧ fsRead (verLoop testHash3 [107] [([97, 47, 102], [5])] []
        ⟨[([97, 47, 102, 46, 101, 110, 99], [9])], false, false⟩
        [([97, 47, 102], [102])]).fs [97, 47, 102] = none
    ∧ fsRead (verLoop testHash3 [107] [([97, 47, 102], [5])] []
        ⟨[([97, 47, 102, 46, 101, 110, 99], [9])], false, false⟩
        [([97, 47, 102], [102])]).fs ([97, 47, 102] ++ dotEnc) = some [9] :=
  ⟨by decide,
   (C5_amended testHash3 [107] [([97, 47, 102], [5])] []
     [([97, 47, 102, 46, 101, 110, 99], [9])] [([97, 47, 102], [102])]
     [97, 47, 102] [9] (by decide) (by decide) (by decide)).1,
   (C5_amended testHash3 [107] [([97, 47, 102], [5])] []
     [([97, 47, 102, 46, 101, 110, 99], [9])] [([97, 47, 102], [102])]
     [97, 47, 102] [9] (by decide) (by decide) (by decide)).2⟩

/-! ## C6: how verification marks failures -/

/-- C6 counterexample: an entry whose counterpart is absent from the
extracted backup does NOT mark verification failed — the loop only prints a
warning and moves on, finishing with `failed = false` (so the run would
report success), where the claim demands the run be marked failed. -/
theorem C6_counterexample :
    (verLoop testHash3 [107] [] [([102], [5])]
      ⟨[([97, 47, 102, 46, 101, 110, 99], [9])], false, false⟩
      [([97, 47, 102], [102])]).failed = false := by
  decide

/-- C6 amended: a missing backup counterpart only logs a warning and leaves
the iteration's state untouched (the run is not failed on its account); when
the backup counterpart and the committed artifact are both present,
verification marks the run failed — through the decryption-failure branch,
which every attempted entry takes because the throwaway copy's name ends in
`".tmp"` and `decrypt_file` rejects it — and the process exits non-zero. -/
theorem C6_amended (hash3 : Bytes → Bytes) (passphrase : Bytes)
    (backup tmp : FS) (st : VerSt) (e : Bytes × Bytes) :
    (fsRead backup e.1 = none → verStep hash3 passphrase backup tmp st e = st)
    ∧ (st.failed = false → st.crashed = false →
        ∀ ob encBytes : Bytes, fsRead backup e.1 = some ob →
          fsRead st.fs (e.1 ++ dotEnc) = some encBytes →
          (verStep hash3 passphrase backup tmp st e).failed = true) := by
  constructor
  · intro hb
    by_cases hf : st.failed || st.crashed
    · simp [verStep, hf]
    · simp [verStep, hf, hb]
  · intro hf hc ob encBytes hb he
    have hde := decrypt_file_not_enc hash3 batchCfg
      (fsWrite st.fs (e.1 ++ (dotEnc ++ dotTmp)) encBytes)
      (e.1 ++ (dotEnc ++ dotTmp)) passphrase
      (by rw [← List.append_assoc]; exact endsWith_tmp_not_enc (e.1 ++ dotEnc))
    simp [verStep, hf, hc, hb, he, hde]

theorem C6_amended_witness :
    verStep testHash3 [107] [] [] ⟨[], false, false⟩ ([97], [102])
      = ⟨[], false, false⟩
    ∧ (verStep testHash3 [107] [([97], [5])] []
        ⟨[([97, 46, 101, 110, 99], [9])], false, false⟩ ([97], [102])).failed
      = true :=
  ⟨(C6_amended testHash3 [107] [] [] ⟨[], false, false⟩ ([97], [102])).1
     (by decide),
   (C6_amended testHash3 [107] [([97], [5])] []
     ⟨[([97, 46, 101, 110, 99], [9])], false, false⟩ ([97], [102])).2
     rfl rfl [5] [9] (by decide) (by decide)⟩
